import Mathlib

/-!
# StocksShorts — article ingestion, deduplication and categorization pipeline

Shallow embedding of the server-side ingestion core of the repository:

* `server/google-sheets.ts` — `GoogleSheetsService.fetchArticles`,
  `mapToValidCategory`, `generateUniqueContent`;
* `server/storage.ts` — `MemStorage.syncFromGoogleSheets`,
  `generateUniqueArticleContent`, `createArticle`, `getTrendingArticles`.

Modelling conventions:

* Spreadsheet rows are `List String`; an absent cell reads as `""`
  (JavaScript `row[i]` yields `undefined`, which is falsy exactly like `""`
  in every use the code makes of a cell).
* Nullable string fields (`stockSymbol`, `stockPrice`, …) are `String`
  with `""` standing for `null`/`undefined`; the code only ever tests them
  for truthiness, where `null`, `undefined` and `""` behave identically.
* `Date.now()` / `new Date()` is an explicit `now : Nat` parameter
  (milliseconds); `createdAt` is that `Nat`.
* The external spreadsheet call either yields rows or throws: it is passed
  in as `Except String (List (List String))`.
* `viewCount` is absent (`undefined`) on a freshly mapped article; the code
  always reads it through `|| 0`, so it is modelled as a `Nat` initialised
  to `0`.
* JavaScript `Map<number, Article>` is an insertion-ordered association
  list `List (Int × Article)` with `mapGet` / `mapSet`.
* `imageUrl` (computed by the separate ImageSelector component,
  `image-logic.ts` / spec §4.3) is not referenced by any of the verified
  claims and is left out of the embedded record.
* `Array.prototype.sort` with the trending comparator is a stable sort; it
  is modelled with `List.insertionSort` over the non-strict relation
  "does not strictly come after", which is the unique stable result.
* `categoryMap` is a plain object literal, so `categoryMap[rawCategory]`
  falls through to the prototype chain: for a key naming an
  `Object.prototype` member (`constructor`, `__proto__`, …) the lookup is
  truthy and the truthiness-guarded exact match returns that inherited
  non-string member. The lookup result is therefore a sum
  (`JsObjValue`): an own string property or an inherited prototype
  member.
-/

namespace StocksShorts

/-- JavaScript `haystack.includes(needle)`: `needle` occurs as a contiguous
substring of `haystack` (the empty string occurs in everything). -/
def strIncludes (haystack needle : String) : Bool :=
  go needle.toList haystack.toList
where
  go (nd : List Char) (hs : List Char) : Bool :=
    if nd.isPrefixOf hs then true
    else
      match hs with
      | [] => false
      | _ :: t => go nd t

/-- JavaScript `s || dflt` for strings: `""` is falsy. -/
def jsOrStr (s dflt : String) : String :=
  if s = "" then dflt else s

/-- JavaScript `s.toLowerCase()` restricted to ASCII (all the alias keys
and flag values the code compares against are ASCII). -/
def jsToLower (s : String) : String :=
  ⟨s.toList.map Char.toLower⟩

/-- JavaScript `s.trim()`: strip leading and trailing whitespace. -/
def jsTrim (s : String) : String :=
  ⟨((s.toList.dropWhile Char.isWhitespace).reverse.dropWhile
      Char.isWhitespace).reverse⟩

/-- Decimal digit value of a character, if any. -/
def decDigit? (c : Char) : Option Nat :=
  if c.isDigit then some (c.toNat - 48) else none

/-- Hexadecimal digit value of a character, if any. -/
def hexDigit? (c : Char) : Option Nat :=
  if c.isDigit then some (c.toNat - 48)
  else if 'a' ≤ c ∧ c ≤ 'f' then some (c.toNat - 87)
  else if 'A' ≤ c ∧ c ≤ 'F' then some (c.toNat - 55)
  else none

/-- Longest prefix of digit values readable by `f`. -/
def takeDigits (f : Char → Option Nat) : List Char → List Nat
  | [] => []
  | c :: cs =>
    match f c with
    | some d => d :: takeDigits f cs
    | none => []

/-- JavaScript `parseInt(s)` (radix unspecified): skip leading whitespace,
optional sign, `0x`/`0X` switches to base 16, longest digit prefix;
`none` models `NaN`. -/
def jsParseInt (s : String) : Option Int :=
  let cs := s.toList.dropWhile Char.isWhitespace
  let sgn : Int := match cs with
    | '-' :: _ => -1
    | _ => 1
  let cs2 : List Char := match cs with
    | '-' :: rest => rest
    | '+' :: rest => rest
    | _ => cs
  let base : Nat := match cs2 with
    | '0' :: 'x' :: _ => 16
    | '0' :: 'X' :: _ => 16
    | _ => 10
  let cs3 : List Char := match cs2 with
    | '0' :: 'x' :: rest => rest
    | '0' :: 'X' :: rest => rest
    | _ => cs2
  let ds := takeDigits (if base = 16 then hexDigit? else decDigit?) cs3
  if ds.isEmpty then none
  else some (sgn * (Int.ofNat (ds.foldl (fun acc d => acc * base + d) 0)))

/-- `parseInt(row[0]) || index + 1`: fall back to the (filtered) position
plus one when the parse is `NaN` or `0`. -/
def jsIdOf (cell : String) (index : Nat) : Int :=
  match jsParseInt cell with
  | none => Int.ofNat index + 1
  | some n => if n = 0 then Int.ofNat index + 1 else n

/-- The `Article` record as built by `fetchArticles` / stored by
`MemStorage` (`shared/schema.ts`, minus the cosmetic `imageUrl` and the
translation cache fields, none of which the claims touch). -/
structure Article where
  id : Int
  title : String
  content : String
  category : String
  stockSymbol : String
  stockPrice : String
  priceChange : String
  exchange : String
  timeAgo : String
  isPremium : Bool
  createdAt : Nat
  source : String
  sentiment : String
  priceTarget : String
  viewCount : Nat
deriving Repr, DecidableEq

/-- A throwaway default used only with `List.getD`. -/
def defaultArticle : Article :=
  { id := 0, title := "", content := "", category := "", stockSymbol := ""
    stockPrice := "", priceChange := "", exchange := "", timeAgo := ""
    isPremium := false, createdAt := 0, source := "", sentiment := ""
    priceTarget := "", viewCount := 0 }

instance : Inhabited Article := ⟨defaultArticle⟩

/-- The `categoryMap` alias table of
`GoogleSheetsService.mapToValidCategory`, in source (insertion) order. -/
def categoryAliases : List (String × String) :=
  [ ("global", "global"), ("world", "global"), ("international", "global"),
    ("us market", "global"), ("dow", "global"), ("nasdaq", "global"),
    ("s&p", "global"),
    ("nifty", "nifty"), ("market", "nifty"), ("markets", "nifty"),
    ("index", "nifty"), ("sensex", "nifty"), ("banknifty", "nifty"),
    ("bank nifty", "nifty"),
    ("warrant", "warrant"), ("warrants", "warrant"),
    ("call warrant", "warrant"), ("put warrant", "warrant"),
    ("breakout", "breakout"), ("breakouts", "breakout"),
    ("technical", "breakout"), ("chart", "breakout"),
    ("research report", "research_report"),
    ("research_report", "research_report"),
    ("researchreport", "research_report"), ("research", "research_report"),
    ("report", "research_report"), ("analysis", "research_report"),
    ("analyst", "research_report"),
    ("movers", "movers"), ("mover", "movers"), ("most active", "movers"),
    ("mostactive", "movers"), ("gainers", "movers"), ("losers", "movers"),
    ("top gainers", "movers"), ("top losers", "movers"),
    ("orderwins", "order_wins"), ("order wins", "order_wins"),
    ("order_wins", "order_wins"), ("orderwin", "order_wins"),
    ("order win", "order_wins"), ("wins", "order_wins"),
    ("deal", "order_wins"), ("contract", "order_wins"),
    ("ath", "ath"), ("all time high", "ath"), ("all-time high", "ath"),
    ("record high", "ath"), ("new high", "ath"),
    ("results", "results"), ("result", "results"), ("earnings", "results"),
    ("quarterly", "results"), ("q1", "results"), ("q2", "results"),
    ("q3", "results"), ("q4", "results"),
    ("ipo", "ipo"), ("ipos", "ipo"), ("initial public offering", "ipo"),
    ("public offering", "ipo"), ("listing", "ipo"),
    ("sme ipo", "sme ipo"), ("smeipo", "sme ipo"), ("sme", "sme ipo"),
    ("small medium enterprises", "sme ipo"),
    ("mcx", "others"), ("commodity", "others"), ("commodities", "others"),
    ("gold", "others"), ("silver", "others"), ("crude", "others"),
    ("oil", "others"),
    ("others", "others"), ("other", "others"), ("general", "others"),
    ("news", "others"), ("policy", "others"), ("rbi", "others"),
    ("government", "others") ]

/-- What `categoryMap[rawCategory]` can evaluate to at runtime: an own
(string-valued) property, or — because `categoryMap` is a plain object
literal — a member inherited from `Object.prototype` (the `constructor`
function, the prototype object via the `__proto__` accessor, `toString`,
…), which is truthy but not a string. -/
inductive JsObjValue where
  | str : String → JsObjValue
  | protoMember : String → JsObjValue
deriving Repr, DecidableEq

/-- The property names `categoryMap` inherits from `Object.prototype`
(V8/Node, Annex B accessors included); reading any of them off the object
literal yields a truthy non-string value. -/
def objectProtoProps : List String :=
  ["constructor", "__proto__", "toString", "toLocaleString", "valueOf",
   "hasOwnProperty", "isPrototypeOf", "propertyIsEnumerable",
   "__defineGetter__", "__defineSetter__", "__lookupGetter__",
   "__lookupSetter__"]

/-- `obj[key]` on a plain object literal: own properties first, then the
prototype chain; `none` models `undefined` (falsy). -/
def jsObjGet (own : List (String × String)) (key : String) :
    Option JsObjValue :=
  match own.lookup key with
  | some v => some (.str v)
  | none =>
    if objectProtoProps.contains key then some (.protoMember key)
    else none

/-- The string image of a lookup result, as the rest of the pipeline sees
it. An own property is itself a string. An inherited prototype member is
NOT a string at runtime: the program stores it in `Article.category`
unchanged, every strict string comparison against it is false, and it is
stringified only on template interpolation — we carry that `ToString`
image (which likewise differs from every category literal and alias key,
so all embedded comparisons and lookups behave as in the program). -/
def categoryFieldOf : JsObjValue → String
  | .str s => s
  | .protoMember name =>
    if name = "__proto__" then "[object Object]"
    else if name = "constructor" then
      "function Object() \x7b [native code] \x7d"
    else "function " ++ name ++ "() \x7b [native code] \x7d"

/-- `GoogleSheetsService.mapToValidCategory`: the truthiness-guarded exact
lookup `if (categoryMap[rawCategory]) return categoryMap[rawCategory]`
(own values are all non-empty strings and inherited prototype members are
truthy, so any `some` is returned); then the first alias related by
substring containment in either direction (`Object.entries` iterates own
properties only); then `"others"`. -/
def mapToValidCategory (rawCategory : String) : JsObjValue :=
  match jsObjGet categoryAliases rawCategory with
  | some v => v
  | none =>
    match categoryAliases.find?
        (fun kv => strIncludes rawCategory kv.1 || strIncludes kv.1 rawCategory) with
    | some kv => .str kv.2
    | none => .str "others"

/-- The category normalization step applied to a raw cell:
`(row[3] || "").toLowerCase().trim()` followed by `mapToValidCategory`. -/
def categoryNormalize (raw : String) : JsObjValue :=
  mapToValidCategory (jsTrim (jsToLower raw))

/-- `GoogleSheetsService.generateUniqueContent` (fetch-stage synthesizer). -/
def generateUniqueContent (title category stockSymbol stockPrice priceChange : String)
    (articleIndex : Nat) : String :=
  let templates : List String :=
    if category = "nifty" then
      [ title ++ " reflects the current market sentiment with significant trading activity. The index movement indicates strong investor confidence amid favorable market conditions.",
        "Market analysts are closely watching " ++ title ++ " as it impacts broader market trends. Technical indicators suggest continued momentum in the " ++ category ++ " segment.",
        title ++ " represents a key development in the equity markets. Institutional investors are showing increased interest in this market segment." ]
    else if category = "trending" then
      [ title ++ " has caught the attention of market participants today. This development could influence sector-wide performance and investor sentiment.",
        "Breaking: " ++ title ++ " is making headlines across financial markets. Expert analysis suggests this could be a significant market catalyst.",
        title ++ " emerges as a key market story with potential long-term implications for investors and traders." ]
    else if category = "breakout" then
      [ title ++ " represents a significant breakout pattern in technical analysis. Chart patterns indicate potential for continued upward momentum.",
        "Technical breakout alert: " ++ title ++ " has crossed key resistance levels. Volume analysis supports the sustainability of this move.",
        title ++ " shows strong breakout characteristics with robust trading volumes. This could signal the beginning of a new trend." ]
    else if category = "research_report" then
      [ "Latest research report highlights: " ++ title ++ ". Detailed fundamental analysis reveals key investment insights and recommendations.",
        title ++ " - Comprehensive research analysis covering financial metrics, growth prospects, and market positioning.",
        "Research update: " ++ title ++ " provides in-depth sector analysis and stock-specific recommendations for informed investment decisions." ]
    else
      [ title ++ " represents an important development in the financial markets. Market dynamics and investor sentiment continue to evolve.",
        title ++ " captures current market attention with significant implications for sector performance and trading strategies.",
        "Latest update: " ++ title ++ " reflects ongoing market trends and provides insights into current investment opportunities." ]
  let baseContent := templates.getD (articleIndex % templates.length) ""
  let marketInsights : List String :=
    [ "Trading volumes remain robust with sustained institutional interest.",
      "Market volatility presents both opportunities and challenges for investors.",
      "Sectoral rotation continues as investors seek value across different segments.",
      "Risk-on sentiment prevails amid favorable macroeconomic conditions.",
      "Technical charts indicate potential for further momentum in this direction." ]
  let insight := marketInsights.getD (articleIndex % marketInsights.length) ""
  let stockDetails :=
    if stockSymbol ≠ "" ∧ stockPrice ≠ "" then
      " " ++ stockSymbol ++ " is currently trading at " ++ stockPrice ++
        (if priceChange ≠ "" then " with a movement of " ++ priceChange else "") ++
        " in the current trading session."
    else ""
  baseContent ++ " " ++ insight ++ stockDetails ++
    " Market participants continue to monitor these developments for strategic positioning."

/-- The row filter of `fetchArticles`:
`row.length >= 3 && row[0] && row[1]` ("must have id and title"). -/
def keepRow (row : List String) : Bool :=
  decide (3 ≤ row.length) && (row.getD 0 "" != "") && (row.getD 1 "" != "")

/-- The per-row mapping body of `fetchArticles` (`index` is the position in
the filtered batch, as produced by `Array.prototype.map` after `filter`). -/
def mapRow (row : List String) (index : Nat) (now : Nat) : Article :=
  let rawCategory := jsTrim (jsToLower (row.getD 3 ""))
  let category := categoryFieldOf (mapToValidCategory rawCategory)
  let content0 := row.getD 2 ""
  let isGenericContent :=
    strIncludes content0 "Domestic indices extended gains" ||
    strIncludes content0 "Technical analysts highlight" ||
    (jsTrim content0 == "")
  let content :=
    if isGenericContent then
      generateUniqueContent (jsOrStr (row.getD 1 "") "Untitled") category
        (row.getD 4 "") (row.getD 5 "") (row.getD 6 "") index
    else content0
  { id := jsIdOf (row.getD 0 "") index
    title := jsOrStr (row.getD 1 "") "Untitled"
    content := content
    category := category
    stockSymbol := row.getD 4 ""
    stockPrice := row.getD 5 ""
    priceChange := row.getD 6 ""
    exchange := row.getD 7 ""
    timeAgo := jsOrStr (row.getD 9 "") "Just now"
    isPremium := jsToLower (row.getD 10 "") == "true"
    createdAt := now
    source := row.getD 11 ""
    sentiment := row.getD 13 ""
    priceTarget := row.getD 12 ""
    viewCount := 0 }

/-- `filtered.map((row, index) => …)` with explicit running index. -/
def mapRowsFrom (now : Nat) : Nat → List (List String) → List Article
  | _, [] => []
  | i, r :: rs => mapRow r i now :: mapRowsFrom now (i + 1) rs

/-- `GoogleSheetsService.fetchArticles`: on a successful spreadsheet call,
filter and map the rows; any thrown error is caught, logged and turned
into the empty array (`catch … return []`). -/
def fetchArticles (fetchRes : Except String (List (List String))) (now : Nat) :
    List Article :=
  match fetchRes with
  | .error _ => []
  | .ok rows => mapRowsFrom now 0 (rows.filter keepRow)

/-! ## `MemStorage` (`server/storage.ts`) -/

/-- `Map.prototype.get` on the insertion-ordered association list. -/
def mapGet (m : List (Int × Article)) (k : Int) : Option Article :=
  (m.find? (fun p => p.1 == k)).map Prod.snd

/-- `Map.prototype.set`: overwrite in place if the key is present
(keeping its position), otherwise append. -/
def mapSet : List (Int × Article) → Int → Article → List (Int × Article)
  | [], k, v => [(k, v)]
  | p :: ps, k, v => if p.1 == k then (k, v) :: ps else p :: mapSet ps k v

/-- The mutable fields of `MemStorage` relevant to the pipeline. -/
structure StorState where
  articles : List (Int × Article)
  currentArticleId : Int
  lastSyncTime : Nat
deriving Repr, DecidableEq

/-- `MemStorage.generateUniqueArticleContent` (sync-stage synthesizer):
variation and insight are chosen by `index mod 5`. -/
def generateUniqueArticleContent
    (title category stockSymbol stockPrice priceChange : String)
    (index : Nat) : String :=
  let contentVariations : List String :=
    [ title ++ " - Market analysis reveals significant developments in the " ++ category ++ " sector. ",
      "Breaking: " ++ title ++ " has emerged as a key market story today. ",
      title ++ " represents important movements in current market dynamics. ",
      "Latest update on " ++ title ++ " shows evolving trends in the " ++ category ++ " space. ",
      title ++ " captures investor attention with notable market implications. " ]
  let additionalInsights : List String :=
    [ "Technical indicators suggest continued momentum with strong volume support.",
      "Fundamental analysis reveals robust growth prospects and market positioning.",
      "Institutional activity indicates sustained interest from major market participants.",
      "Sector rotation patterns highlight potential opportunities for strategic investors.",
      "Market sentiment remains positive with favorable risk-reward dynamics." ]
  let baseContent := contentVariations.getD (index % contentVariations.length) ""
  let insight := additionalInsights.getD (index % additionalInsights.length) ""
  let stockDetails :=
    if stockSymbol ≠ "" ∧ stockPrice ≠ "" then
      " " ++ stockSymbol ++ " is currently trading at " ++ stockPrice ++
        (if priceChange ≠ "" then " showing " ++ priceChange ++ " movement" else "") ++
        " in the current session."
    else ""
  baseContent ++ insight ++ stockDetails ++
    " Traders and investors are monitoring these developments for potential market opportunities."

/-- The duplicate-content fixup of `syncFromGoogleSheets` for one article:
`done` holds the (already fixed) articles of the same batch that precede
it, so `done.length` is the `forEach` index used by the synthesizer. -/
def dedupStep (done : List Article) (a : Article) : Article :=
  let isDuplicateContent :=
    done.any (fun o => o.content == a.content && (jsTrim a.content != ""))
  let uniqueContent := generateUniqueArticleContent a.title a.category
    a.stockSymbol a.stockPrice a.priceChange done.length
  if a.content = "" ∨ jsTrim a.content = "" ∨ isDuplicateContent then
    { a with content := uniqueContent }
  else a

/-- One `forEach` body of `syncFromGoogleSheets`: fix duplicate content,
then carry the view count of an already-present article with the same id
(`existingArticle.viewCount || 0`), else initialise it to `0`. -/
def syncArticle (done : List Article) (store : List (Int × Article))
    (a : Article) : Article :=
  let a1 := dedupStep done a
  let vc := match mapGet store a1.id with
    | some ex => ex.viewCount
    | none => 0
  { a1 with viewCount := vc }

/-- The whole `forEach` loop of `syncFromGoogleSheets`: returns the batch
articles after in-place mutation, the rebuilt article map and the final
`currentArticleId`. -/
def runBatch (done : List Article) (store : List (Int × Article))
    (curr : Int) : List Article → List Article × List (Int × Article) × Int
  | [] => ([], store, curr)
  | a :: rest =>
    let a2 := syncArticle done store a
    let r := runBatch (done ++ [a2]) (mapSet store a2.id a2)
      (if curr ≤ a2.id then a2.id + 1 else curr) rest
    (a2 :: r.1, r.2.1, r.2.2)

/-- The batch articles after the dedup-and-synthesis pass of
`syncFromGoogleSheets` (the final contents of `sheetsArticles`). -/
def syncProcessed (arts : List Article) : List Article :=
  (runBatch [] [] 1 arts).1

/-- `MemStorage.syncFromGoogleSheets`: fetch (errors are caught and leave
the state untouched); an empty batch is a no-op; otherwise the article map
is cleared, `currentArticleId` reset to 1, and the batch reconciled in. -/
def syncFromGoogleSheets (st : StorState)
    (fetchRes : Except String (List (List String))) (now : Nat) : StorState :=
  let sheetsArticles := fetchArticles fetchRes now
  if 0 < sheetsArticles.length then
    let r := runBatch [] [] 1 sheetsArticles
    { articles := r.2.1, currentArticleId := r.2.2, lastSyncTime := now }
  else st

/-- The caller-supplied fields of `MemStorage.createArticle`
(`InsertArticle`, nullable strings as `""`). -/
structure InsertArticle where
  title : String
  content : String
  category : String
  stockSymbol : String
  stockPrice : String
  priceChange : String
  exchange : String
  timeAgo : String
deriving Repr, DecidableEq

/-- `MemStorage.createArticle`: assigns the next id, stamps `createdAt`,
and always sets `isPremium := false`. -/
def createArticle (st : StorState) (ins : InsertArticle) (now : Nat) :
    Article × StorState :=
  let article : Article :=
    { id := st.currentArticleId
      title := ins.title
      content := ins.content
      category := ins.category
      stockSymbol := ins.stockSymbol
      stockPrice := ins.stockPrice
      priceChange := ins.priceChange
      exchange := ins.exchange
      timeAgo := ins.timeAgo
      isPremium := false
      createdAt := now
      source := ""
      sentiment := ""
      priceTarget := ""
      viewCount := 0 }
  (article,
   { st with
      articles := mapSet st.articles article.id article
      currentArticleId := st.currentArticleId + 1 })

/-! ## `MemStorage.getTrendingArticles` -/

/-- The trending comparator as a strict "comes before" test:
`comparator(a, b) < 0` — higher `viewCount` first, ties broken by more
recent `createdAt`. -/
def trendLtB (a b : Article) : Bool :=
  if a.viewCount = b.viewCount then decide (b.createdAt < a.createdAt)
  else decide (b.viewCount < a.viewCount)

/-- Non-strict version: `a` is allowed to appear no later than `b` under a
stable sort by the trending comparator. -/
def trendLe (a b : Article) : Prop := trendLtB b a = false

instance : DecidableRel trendLe := fun a b => by
  unfold trendLe; infer_instance

theorem trendLe_iff (a b : Article) :
    trendLe a b ↔ b.viewCount < a.viewCount ∨
      (a.viewCount = b.viewCount ∧ b.createdAt ≤ a.createdAt) := by
  unfold trendLe trendLtB
  by_cases h : b.viewCount = a.viewCount <;> simp [h] <;> omega

theorem trendLe_total : ∀ a b : Article, trendLe a b ∨ trendLe b a := by
  intro a b
  rw [trendLe_iff, trendLe_iff]
  omega

theorem trendLe_trans : ∀ a b c : Article,
    trendLe a b → trendLe b c → trendLe a c := by
  intro a b c hab hbc
  rw [trendLe_iff] at *
  omega

instance : IsTotal Article trendLe := ⟨trendLe_total⟩

instance : IsTrans Article trendLe := ⟨trendLe_trans⟩

/-- `allArticles.sort(comparator)` — a stable sort by the trending
comparator. -/
def sortedByViews (arts : List Article) : List Article :=
  List.insertionSort trendLe arts

/-- `sortedByViews.slice(0, 15)` — the "most viewed" head. -/
def mostViewed (arts : List Article) : List Article :=
  (sortedByViews arts).take 15

/-- `sortedByViews.slice(15)` — the remaining articles. -/
def trendRemaining (arts : List Article) : List Article :=
  (sortedByViews arts).drop 15

/-- The five prioritised tail categories of `getTrendingArticles`. -/
def trendCats : List String :=
  ["nifty", "breakout", "ipo", "research_report", "movers"]

/-- The `diverseContent` tail: per-category quotas drawn from the
remainder. -/
def trendTail (arts : List Article) : List Article :=
  ((trendRemaining arts).filter (fun a => a.category == "nifty")).take 2 ++
  ((trendRemaining arts).filter (fun a => a.category == "breakout")).take 2 ++
  ((trendRemaining arts).filter (fun a => a.category == "ipo")).take 2 ++
  ((trendRemaining arts).filter (fun a => a.category == "research_report")).take 2 ++
  ((trendRemaining arts).filter (fun a => a.category == "movers")).take 2 ++
  ((trendRemaining arts).filter (fun a => !(trendCats.contains a.category))).take 5

/-- `MemStorage.getTrendingArticles` on the store's article values. -/
def getTrendingArticles (arts : List Article) : List Article :=
  mostViewed arts ++ trendTail arts

/-! ## Concrete fixtures used by the counterexamples and evaluations -/

/-- A store holding article id 7 with 42 recorded views. -/
def c1PriorArticle : Article :=
  { defaultArticle with
      id := 7, title := "Seven", content := "Existing stored content for seven"
      category := "nifty", viewCount := 42, createdAt := 100 }

/-- Prior store state for the view-count persistence check. -/
def c1Store : StorState :=
  { articles := [(7, c1PriorArticle)], currentArticleId := 8, lastSyncTime := 0 }

/-- A fetched batch that again contains id 7. -/
def c1Rows : List (List String) :=
  [["7", "Seven again", "Fresh sheet content for seven", "nifty"]]

/-- A spreadsheet row whose raw category is `warrant` and whose premium
cell (column K) is absent. -/
def c3WarrantRow : List String :=
  ["7", "HDFC Bank Call Warrants Update", "Warrant desk commentary for the session", "warrant"]

/-- A `createArticle` payload in category `warrant`. -/
def c3WarrantInsert : InsertArticle :=
  { title := "Warrant note", content := "Some warrant body", category := "warrant"
    stockSymbol := "", stockPrice := "", priceChange := "", exchange := ""
    timeAgo := "Just now" }

/-- An empty store to create articles into. -/
def emptyStore : StorState :=
  { articles := [], currentArticleId := 1, lastSyncTime := 0 }

/-- A store holding article id 9 first created at time 111. -/
def c9PriorArticle : Article :=
  { defaultArticle with
      id := 9, title := "Nine", content := "Original content for nine"
      category := "movers", viewCount := 3, createdAt := 111 }

/-- Prior store state for the `createdAt` stability check. -/
def c9Store : StorState :=
  { articles := [(9, c9PriorArticle)], currentArticleId := 10, lastSyncTime := 0 }

/-- A fetched batch that again contains id 9. -/
def c9Rows : List (List String) :=
  [["9", "Nine again", "Refreshed sheet content for nine", "movers"]]

/-- The category set exactly as the specification spells it
(`sme_ipo` with an underscore). -/
def specCategories : List String :=
  ["nifty", "breakout", "movers", "warrant", "ipo", "sme_ipo",
   "order_wins", "ath", "results", "research_report", "others", "global"]

/-- The category codomain the code actually uses (`"sme ipo"` with a
space). -/
def validCategories : List String :=
  ["nifty", "breakout", "movers", "warrant", "ipo", "sme ipo",
   "order_wins", "ath", "results", "research_report", "others", "global"]

/-- A row carrying an id but an empty title cell. -/
def c8IdOnlyRow : List String :=
  ["5", "", "Some perfectly usable content"]

/-! ## Supporting lemmas -/

theorem lookup_mem {l : List (String × String)} {k v : String}
    (h : l.lookup k = some v) : (k, v) ∈ l := by
  induction l with
  | nil => cases h
  | cons p ps ih =>
    obtain ⟨pk, pv⟩ := p
    rw [List.lookup] at h
    cases heq : k == pk with
    | true =>
      rw [heq] at h
      cases h
      exact (eq_of_beq heq) ▸ List.mem_cons_self _ _
    | false =>
      rw [heq] at h
      exact List.mem_cons_of_mem _ (ih h)

theorem length_mapRowsFrom (now : Nat) :
    ∀ (i : Nat) (rs : List (List String)),
      (mapRowsFrom now i rs).length = rs.length := by
  intro i rs
  induction rs generalizing i with
  | nil => rfl
  | cons r rs ih => simp [mapRowsFrom, ih]

theorem createdAt_mapRowsFrom (now : Nat) :
    ∀ (i : Nat) (rs : List (List String)) (a : Article),
      a ∈ mapRowsFrom now i rs → a.createdAt = now := by
  intro i rs
  induction rs generalizing i with
  | nil => intro a ha; cases ha
  | cons r rs ih =>
    intro a ha
    rcases List.mem_cons.mp ha with h | h
    · subst h; rfl
    · exact ih _ a h

theorem createdAt_syncArticle (done : List Article)
    (store : List (Int × Article)) (a : Article) :
    (syncArticle done store a).createdAt = a.createdAt := by
  dsimp only [syncArticle, dedupStep]
  split <;> rfl

theorem mem_mapSet (store : List (Int × Article)) (k : Int) (v : Article) :
    ∀ p ∈ mapSet store k v, p ∈ store ∨ p = (k, v) := by
  induction store with
  | nil => intro p hp; simp [mapSet] at hp; exact Or.inr hp
  | cons q qs ih =>
    intro p hp
    unfold mapSet at hp
    split at hp
    · rcases List.mem_cons.mp hp with h | h
      · exact Or.inr h
      · exact Or.inl (List.mem_cons_of_mem q h)
    · rcases List.mem_cons.mp hp with h | h
      · exact Or.inl (h ▸ List.mem_cons_self q qs)
      · rcases ih p h with h2 | h2
        · exact Or.inl (List.mem_cons_of_mem q h2)
        · exact Or.inr h2

theorem runBatch_store_createdAt (now : Nat) :
    ∀ (l done : List Article) (store : List (Int × Article)) (curr : Int),
      (∀ p ∈ store, (Prod.snd p).createdAt = now) →
      (∀ a ∈ l, a.createdAt = now) →
      ∀ p ∈ (runBatch done store curr l).2.1, (Prod.snd p).createdAt = now := by
  intro l
  induction l with
  | nil => intro done store curr hs _ p hp; exact hs p hp
  | cons a rest ih =>
    intro done store curr hs hl p hp
    simp only [runBatch] at hp
    refine ih _ _ _ ?_ ?_ p hp
    · intro q hq
      rcases mem_mapSet store (syncArticle done store a).id
          (syncArticle done store a) q hq with h | h
      · exact hs q h
      · rw [h]
        show (syncArticle done store a).createdAt = now
        rw [createdAt_syncArticle]
        exact hl a (List.mem_cons_self a rest)
    · intro b hb; exact hl b (List.mem_cons_of_mem a hb)

/-! ## Claims C1, C2, C3 -/

/-- C1: the spec (and the code's own comment "Preserve existing view count
if article already exists") requires `viewCount` to survive a re-sync of
the same id; but `syncFromGoogleSheets` clears the article map before the
lookup, so the carried-forward branch never sees the pre-sync store: after
re-syncing id 7 the stored view count is 0, not the prior 42. -/
theorem viewCount_reset_on_resync :
    (mapGet c1Store.articles 7).map Article.viewCount = some 42 ∧
    (mapGet (syncFromGoogleSheets c1Store (.ok c1Rows) 1000).articles 7).map
        Article.viewCount = some 0 := by
  constructor <;> rfl

/-- C2: if the external fetch throws, `syncFromGoogleSheets` leaves the
entire store state — in particular the stored article set — unchanged: a
failed sync never partially mutates the store. -/
theorem sync_error_frame (st : StorState) (e : String) (now : Nat) :
    syncFromGoogleSheets st (.error e) now = st := rfl

/-- C3: the spec, `shared/schema.ts` ("true for warrant and breakout") and
`DatabaseStorage.createArticle` all derive `isPremium` from the category;
but the ingestion mapping sets it only from the raw premium cell and
`MemStorage.createArticle` hardcodes `false`: a `warrant` row with no
explicit premium flag is mapped with `isPremium = false`, and
`createArticle` on a `warrant` payload also yields `false`. -/
theorem warrant_row_not_premium :
    (fetchArticles (.ok [c3WarrantRow]) 0).map
        (fun a => (a.category, a.isPremium)) = [("warrant", false)] ∧
    ((createArticle emptyStore c3WarrantInsert 0).1.category = "warrant" ∧
      (createArticle emptyStore c3WarrantInsert 0).1.isPremium = false) := by
  exact ⟨rfl, rfl, rfl⟩

/-! ## Claim C6 -/

/-- C6 counterexample: a failed spreadsheet call is caught inside
`fetchArticles` and returned as an empty-but-successful row list — the
very same value an empty sheet produces — so the reconciler cannot
distinguish "no data" from "fetch failed". -/
theorem fetch_failure_indistinguishable_from_empty :
    fetchArticles (.error "network error") 0 = ([] : List Article) ∧
    fetchArticles (.ok []) 0 = ([] : List Article) := ⟨rfl, rfl⟩

/-- C6 amended: when the underlying spreadsheet call fails,
`fetchArticles` catches the error, logs it, and returns the empty article
list, identical to the result of an empty source; the sync treats both as
"no data" and leaves the store unchanged. -/
theorem fetch_failure_returns_empty (e : String) (now : Nat) (st : StorState) :
    fetchArticles (.error e) now = fetchArticles (.ok []) now ∧
    syncFromGoogleSheets st (.error e) now = st := ⟨rfl, rfl⟩

/-! ## Claim C9 -/

/-- C9 counterexample: article id 9 was first created at time 111, yet
after a re-sync at time 2222 whose batch again contains id 9, the stored
`createdAt` is 2222 — `sync()` overwrites `createdAt` on every pass. -/
theorem createdAt_overwritten_on_resync :
    (mapGet c9Store.articles 9).map Article.createdAt = some 111 ∧
    (mapGet (syncFromGoogleSheets c9Store (.ok c9Rows) 2222).articles 9).map
        Article.createdAt = some 2222 := by
  constructor <;> rfl

/-- C9 amended: every article stored by a sync that actually ingested a
non-empty batch carries `createdAt` equal to that sync's mapping time —
prior creation times are not carried forward. -/
theorem sync_stamps_createdAt (st : StorState) (rows : List (List String))
    (now : Nat) (hne : 0 < (fetchArticles (.ok rows) now).length) :
    ∀ p ∈ (syncFromGoogleSheets st (.ok rows) now).articles,
      (Prod.snd p).createdAt = now := by
  intro p hp
  unfold syncFromGoogleSheets at hp
  rw [if_pos hne] at hp
  refine runBatch_store_createdAt now _ [] [] 1 (by intro q hq; cases hq) ?_ p hp
  intro a ha
  exact createdAt_mapRowsFrom now 0 _ a ha

/-- C9 amended, witness: re-syncing the concrete store at time 2222
stamps the lone stored article with `createdAt = 2222`. -/
theorem sync_stamps_createdAt_witness :
    (Prod.snd ((syncFromGoogleSheets c9Store (.ok c9Rows) 2222).articles.getD 0
        (0, defaultArticle))).createdAt = 2222 := by
  exact sync_stamps_createdAt c9Store c9Rows 2222 (by decide) _ (by decide)

/-! ## Claim C5 -/

/-- C5 counterexample: `categoryMap` is a plain object literal, so the
truthy exact-match guard hits inherited `Object.prototype` members — the
inputs `"constructor"` and `"__proto__"` (already lower-case and trimmed)
return those non-string members rather than any category; and the alias
`"sme"` normalizes to the code's literal `"sme ipo"` (with a space),
absent from the category set as the specification spells it
(`"sme_ipo"`). -/
theorem category_prototype_leak :
    categoryNormalize "constructor" = JsObjValue.protoMember "constructor" ∧
    categoryNormalize "__proto__" = JsObjValue.protoMember "__proto__" ∧
    categoryNormalize "sme" = JsObjValue.str "sme ipo" ∧
    "sme ipo" ∉ specCategories := by
  exact ⟨rfl, rfl, rfl, by decide⟩

/-- C5 amended: category normalization (lower-case, trim, then
`mapToValidCategory`) never throws and is deterministic, but its codomain
is the twelve-element category set the code actually uses (`"sme ipo"`
spelled with a space) **extended by the inherited `Object.prototype`
members** that the truthy exact-match guard leaks for inputs whose
lower-cased, trimmed form is a prototype property name; the mixed-case /
padded variants of `global` all normalize to the same category as
`"global"` itself. -/
theorem categoryNormalize_total :
    (∀ s : String,
      (∃ c ∈ validCategories, categoryNormalize s = JsObjValue.str c) ∨
      ∃ p ∈ objectProtoProps, categoryNormalize s = JsObjValue.protoMember p) ∧
    categoryNormalize "GLOBAL" = categoryNormalize "global" ∧
    categoryNormalize "Global " = categoryNormalize "global" ∧
    categoryNormalize " global" = categoryNormalize "global" ∧
    categoryNormalize "global" = JsObjValue.str "global" := by
  refine ⟨?_, rfl, rfl, rfl, rfl⟩
  intro s
  have hvals : ∀ p ∈ categoryAliases, Prod.snd p ∈ validCategories := by decide
  unfold categoryNormalize mapToValidCategory jsObjGet
  cases h : categoryAliases.lookup (jsTrim (jsToLower s)) with
  | some v =>
    simp only [h]
    exact Or.inl ⟨v, hvals _ (lookup_mem h), rfl⟩
  | none =>
    simp only [h]
    by_cases hp : objectProtoProps.contains (jsTrim (jsToLower s)) = true
    · rw [if_pos hp]
      exact Or.inr ⟨_, List.elem_iff.mp hp, rfl⟩
    · rw [if_neg hp]
      cases h2 : categoryAliases.find? (fun kv =>
          strIncludes (jsTrim (jsToLower s)) kv.1 ||
          strIncludes kv.1 (jsTrim (jsToLower s))) with
      | some kv =>
        simp only [h2]
        exact Or.inl ⟨kv.2, hvals kv (List.mem_of_find?_eq_some h2), rfl⟩
      | none =>
        simp only [h2]
        exact Or.inl ⟨"others", by decide, rfl⟩

/-! ## Claim C8 -/

/-- C8 counterexample: a row with a non-empty id cell but an empty title
cell is skipped by the batch filter (`row.length >= 3 && row[0] && row[1]`
requires id AND title), contradicting the claim that a row with an id or
a title is mapped. -/
theorem id_only_row_skipped :
    c8IdOnlyRow.getD 0 "" ≠ "" ∧
    fetchArticles (.ok [c8IdOnlyRow]) 0 = [] := by
  exact ⟨by decide, rfl⟩

/-- C8 amended: a raw row is skipped exactly when it has fewer than three
cells or an empty id cell or an empty title cell — every row passing that
structural test is mapped to an article — and a skipped row never aborts
the batch: dropping it leaves the mapping of the remaining rows (including
their positional indices) unchanged. -/
theorem skip_is_per_row (rows : List (List String)) (now : Nat) :
    (fetchArticles (.ok rows) now).length =
      (rows.filter (fun r =>
        decide (3 ≤ r.length) && (r.getD 0 "" != "") && (r.getD 1 "" != ""))).length ∧
    ∀ bad : List String,
      ¬(3 ≤ bad.length ∧ bad.getD 0 "" ≠ "" ∧ bad.getD 1 "" ≠ "") →
      fetchArticles (.ok (bad :: rows)) now = fetchArticles (.ok rows) now := by
  constructor
  · show (mapRowsFrom now 0 (rows.filter keepRow)).length = _
    rw [length_mapRowsFrom]
    rfl
  · intro bad hbad
    have hk : ¬(keepRow bad = true) := by
      intro hkt
      apply hbad
      unfold keepRow at hkt
      simp only [Bool.and_eq_true, decide_eq_true_eq, bne_iff_ne, ne_eq] at hkt
      exact ⟨hkt.1.1, hkt.1.2, hkt.2⟩
    show mapRowsFrom now 0 ((bad :: rows).filter keepRow) =
      mapRowsFrom now 0 (rows.filter keepRow)
    rw [List.filter_cons_of_neg hk]

/-- A mappable single-row batch. -/
def c8GoodRows : List (List String) :=
  [["1", "Tech Mahindra Q3", "Results roundup for the quarter", "results"]]

/-- C8 amended, witness: prepending the id-only (title-less) row to a good
batch changes nothing about how the good batch maps. -/
theorem skip_is_per_row_witness :
    fetchArticles (.ok (c8IdOnlyRow :: c8GoodRows)) 3 =
      fetchArticles (.ok c8GoodRows) 3 := by
  exact (skip_is_per_row c8GoodRows 3).2 c8IdOnlyRow (by decide)

/-! ## Claim C4 — the dedup-and-synthesis pass -/

theorem content_syncArticle (done : List Article)
    (store : List (Int × Article)) (a : Article) :
    (syncArticle done store a).content = (dedupStep done a).content := by
  dsimp only [syncArticle]

theorem runBatch_length :
    ∀ (l done : List Article) (store : List (Int × Article)) (curr : Int),
      (runBatch done store curr l).1.length = l.length := by
  intro l
  induction l with
  | nil => intro done store curr; rfl
  | cons a rest ih =>
    intro done store curr
    simp only [runBatch, List.length_cons, ih]

/-- The article at position `j` of the processed batch carries exactly the
content that `dedupStep` assigns it against the processed articles that
precede it. -/
theorem runBatch_getD_content :
    ∀ (l done : List Article) (store : List (Int × Article)) (curr : Int)
      (j : Nat), j < l.length →
      ((runBatch done store curr l).1.getD j defaultArticle).content =
        (dedupStep (done ++ (runBatch done store curr l).1.take j)
          (l.getD j defaultArticle)).content := by
  intro l
  induction l with
  | nil => intro done store curr j hj; exact absurd hj (Nat.not_lt_zero j)
  | cons a rest ih =>
    intro done store curr j hj
    cases j with
    | zero =>
      simp only [runBatch, List.getD_cons_zero, List.take_zero, List.append_nil]
      exact content_syncArticle done store a
    | succ j =>
      simp only [runBatch, List.getD_cons_succ, List.take_succ_cons]
      rw [ih _ _ _ j (Nat.lt_of_succ_lt_succ hj)]
      simp only [List.append_nil, List.append_assoc, List.singleton_append]

/-- If some already-processed article has the same (non-blank) content,
`dedupStep` replaces the content with the synthesizer's output for the
current position. -/
theorem dedupStep_regen (D : List Article) (a : Article)
    (ht : jsTrim a.content ≠ "") (hd : ∃ d ∈ D, d.content = a.content) :
    (dedupStep D a).content =
      generateUniqueArticleContent a.title a.category a.stockSymbol
        a.stockPrice a.priceChange D.length := by
  obtain ⟨d, hdm, hde⟩ := hd
  dsimp only [dedupStep]
  rw [if_pos]
  refine Or.inr (Or.inr ?_)
  refine List.any_eq_true.mpr ⟨d, hdm, ?_⟩
  refine (Bool.and_eq_true _ _).mpr ⟨beq_iff_eq.mpr hde, ?_⟩
  exact bne_iff_ne.mpr ht

/-- An article whose content is not blank either keeps its content through
`dedupStep` or some earlier processed article already carried it. -/
theorem dedupStep_keep_or_mem (D : List Article) (a : Article)
    (ht : jsTrim a.content ≠ "") :
    (dedupStep D a).content = a.content ∨ ∃ d ∈ D, d.content = a.content := by
  dsimp only [dedupStep]
  split
  next h =>
    rcases h with h | h | h
    · exact absurd (by rw [h]; rfl : jsTrim a.content = "") ht
    · exact absurd h ht
    · right
      obtain ⟨d, hdm, hde⟩ := List.any_eq_true.mp h
      exact ⟨d, hdm, eq_of_beq ((Bool.and_eq_true _ _).mp hde).1⟩
  next h => left; rfl

theorem getD_mem_take (L : List Article) :
    ∀ i j : Nat, i < j → i < L.length →
      L.getD i defaultArticle ∈ L.take j := by
  induction L with
  | nil => intro i j _ hi; exact absurd hi (Nat.not_lt_zero i)
  | cons x xs ih =>
    intro i j hij hi
    cases j with
    | zero => exact absurd hij (Nat.not_lt_zero i)
    | succ j =>
      cases i with
      | zero => simp [List.take_succ_cons]
      | succ i =>
        simp only [List.take_succ_cons, List.getD_cons_succ]
        exact List.mem_cons_of_mem x
          (ih i j (Nat.lt_of_succ_lt_succ hij)
            (Nat.lt_of_succ_lt_succ hi))

theorem mem_take_mono {L : List Article} {a : Article} {i j : Nat}
    (hij : i ≤ j) (h : a ∈ L.take i) : a ∈ L.take j := by
  have heq : L.take i = (L.take j).take i := by
    rw [List.take_take, Nat.min_eq_left hij]
  rw [heq] at h
  exact List.take_subset _ _ h

/-- C4 amended: within one sync batch, whenever an earlier article (at
position `i`) carries the same non-blank content as the article at
position `j`, the dedup pass regenerates position `j`: its final content
is the synthesizer's output for position `j` (so the second and later
occurrences of duplicated content are always rewritten — though two such
rewritten articles can still coincide with each other). -/
theorem later_duplicate_regenerated (arts : List Article) (i j : Nat)
    (hij : i < j) (hj : j < arts.length)
    (heq : (arts.getD i defaultArticle).content =
      (arts.getD j defaultArticle).content)
    (ht : jsTrim ((arts.getD j defaultArticle).content) ≠ "") :
    ((syncProcessed arts).getD j defaultArticle).content =
      generateUniqueArticleContent (arts.getD j defaultArticle).title
        (arts.getD j defaultArticle).category
        (arts.getD j defaultArticle).stockSymbol
        (arts.getD j defaultArticle).stockPrice
        (arts.getD j defaultArticle).priceChange j := by
  have hi : i < arts.length := Nat.lt_trans hij hj
  have hps : (syncProcessed arts).length = arts.length :=
    runBatch_length arts [] [] 1
  have hti : jsTrim ((arts.getD i defaultArticle).content) ≠ "" := by
    rw [heq]; exact ht
  -- some processed article before position j carries the duplicated content
  have hwit : ∃ d ∈ (syncProcessed arts).take j,
      d.content = (arts.getD j defaultArticle).content := by
    have hchar := runBatch_getD_content arts [] [] 1 i hi
    simp only [List.nil_append] at hchar
    rcases dedupStep_keep_or_mem ((syncProcessed arts).take i)
        (arts.getD i defaultArticle) hti with hk | ⟨d, hdm, hde⟩
    · refine ⟨(syncProcessed arts).getD i defaultArticle, ?_, ?_⟩
      · exact getD_mem_take _ i j hij (hps ▸ hi)
      · rw [show ((syncProcessed arts).getD i defaultArticle).content =
            (dedupStep ((syncProcessed arts).take i)
              (arts.getD i defaultArticle)).content from hchar, hk, heq]
    · exact ⟨d, mem_take_mono (Nat.le_of_lt hij) hdm, hde.trans heq⟩
  have hchar := runBatch_getD_content arts [] [] 1 j hj
  simp only [List.nil_append] at hchar
  have hchar2 : ((syncProcessed arts).getD j defaultArticle).content =
      (dedupStep ((syncProcessed arts).take j)
        (arts.getD j defaultArticle)).content := hchar
  rw [hchar2]
  have hlen : ((syncProcessed arts).take j).length = j := by
    rw [List.length_take, hps]
    exact Nat.min_eq_left (Nat.le_of_lt hj)
  rw [dedupStep_regen _ _ ht hwit, hlen]

/-- A seven-row batch: rows 0, 1 and 6 share the same non-empty content,
and rows 1 and 6 agree on title, category and stock fields, so both are
regenerated with position `1 mod 5 = 6 mod 5`. -/
def c4Rows : List (List String) :=
  [["1", "Alpha", "DUP", "movers"],
   ["2", "Beta", "DUP", "movers"],
   ["3", "Gamma", "Unique content three", "movers"],
   ["4", "Delta", "Unique content four", "movers"],
   ["5", "Epsilon", "Unique content five", "movers"],
   ["6", "Zeta", "Unique content six", "movers"],
   ["7", "Beta", "DUP", "movers"]]

/-- The batch after fetching and after the sync dedup pass. -/
def c4Proc : List Article :=
  syncProcessed (fetchArticles (.ok c4Rows) 0)

/-- C4 counterexample: rows 1 and 6 of `c4Rows` have equal, non-empty raw
content, yet after the dedup-and-synthesis pass their final contents are
byte-identical — the synthesizer indexes its templates by `position mod 5`
and never re-checks its own output, so two regenerated duplicates can
collide. -/
theorem duplicate_synthesis_collision :
    (c4Rows.getD 1 []).getD 2 "" = (c4Rows.getD 6 []).getD 2 "" ∧
    (c4Rows.getD 1 []).getD 2 "" ≠ "" ∧
    (c4Proc.getD 1 defaultArticle).content =
      (c4Proc.getD 6 defaultArticle).content := by
  refine ⟨rfl, by decide, ?_⟩
  rfl

/-- Two batch articles with identical non-blank content. -/
def c4wFirst : Article :=
  { defaultArticle with
      id := 1, title := "One", content := "Same body", category := "nifty" }

/-- Second article carrying the duplicated content. -/
def c4wSecond : Article :=
  { defaultArticle with
      id := 2, title := "Two", content := "Same body", category := "nifty" }

/-- C4 amended, witness: in the two-article batch the later duplicate is
regenerated with the synthesizer's output for position 1. -/
theorem later_duplicate_regenerated_witness :
    ((syncProcessed [c4wFirst, c4wSecond]).getD 1 defaultArticle).content =
      generateUniqueArticleContent c4wSecond.title c4wSecond.category
        c4wSecond.stockSymbol c4wSecond.stockPrice c4wSecond.priceChange 1 := by
  exact later_duplicate_regenerated [c4wFirst, c4wSecond] 0 1
    (by decide) (by decide) (by decide) (by decide)

/-! ## Claim C10 — the store is keyed by id, later rows win -/

theorem mapSet_keys_subset (store : List (Int × Article)) (k : Int)
    (v : Article) :
    ∀ x ∈ (mapSet store k v).map Prod.fst,
      x ∈ store.map Prod.fst ∨ x = k := by
  intro x hx
  obtain ⟨p, hp, hpx⟩ := List.mem_map.mp hx
  rcases mem_mapSet store k v p hp with h | h
  · exact Or.inl (List.mem_map.mpr ⟨p, h, hpx⟩)
  · right; rw [← hpx, h]

theorem mapSet_keys_nodup (store : List (Int × Article)) (k : Int)
    (v : Article) (h : (store.map Prod.fst).Nodup) :
    ((mapSet store k v).map Prod.fst).Nodup := by
  induction store with
  | nil => simp [mapSet]
  | cons q qs ih =>
    unfold mapSet
    simp only [List.map_cons, List.nodup_cons] at h
    split
    next hk =>
      simp only [List.map_cons, List.nodup_cons]
      exact ⟨(eq_of_beq hk) ▸ h.1, h.2⟩
    next hk =>
      simp only [List.map_cons, List.nodup_cons]
      refine ⟨?_, ih h.2⟩
      intro hq
      rcases mapSet_keys_subset qs k v q.1 hq with h2 | h2
      · exact h.1 h2
      · exact hk (beq_iff_eq.mpr h2)

theorem mapSet_length_le (store : List (Int × Article)) (k : Int)
    (v : Article) : (mapSet store k v).length ≤ store.length + 1 := by
  induction store with
  | nil => simp [mapSet]
  | cons q qs ih =>
    unfold mapSet
    split
    · simp
    · simpa using Nat.succ_le_succ ih

theorem runBatch_keys_nodup :
    ∀ (l done : List Article) (store : List (Int × Article)) (curr : Int),
      (store.map Prod.fst).Nodup →
      (((runBatch done store curr l).2.1).map Prod.fst).Nodup := by
  intro l
  induction l with
  | nil => intro done store curr h; exact h
  | cons a rest ih =>
    intro done store curr h
    exact ih _ _ _ (mapSet_keys_nodup _ _ _ h)

theorem runBatch_store_length_le :
    ∀ (l done : List Article) (store : List (Int × Article)) (curr : Int),
      (runBatch done store curr l).2.1.length ≤ store.length + l.length := by
  intro l
  induction l with
  | nil => intro done store curr; simp [runBatch]
  | cons a rest ih =>
    intro done store curr
    calc (runBatch done store curr (a :: rest)).2.1.length
        ≤ (mapSet store (syncArticle done store a).id
            (syncArticle done store a)).length + rest.length := ih _ _ _
      _ ≤ store.length + 1 + rest.length :=
          Nat.add_le_add_right (mapSet_length_le _ _ _) _
      _ = store.length + (a :: rest).length := by simp; omega

theorem mapGet_mapSet (store : List (Int × Article)) (k : Int) (v : Article)
    (k2 : Int) :
    mapGet (mapSet store k v) k2 =
      if k2 = k then some v else mapGet store k2 := by
  induction store with
  | nil =>
    by_cases h : k2 = k
    · simp [mapGet, mapSet, List.find?_cons, beq_iff_eq, h]
    · have hb : (k == k2) = false :=
        beq_eq_false_iff_ne.mpr (fun hk => h hk.symm)
      simp [mapGet, mapSet, List.find?_cons, hb, h]
  | cons q qs ih =>
    by_cases hqk : q.1 = k
    · rw [show mapSet (q :: qs) k v = (k, v) :: qs by
        simp only [mapSet]; rw [if_pos (beq_iff_eq.mpr hqk)]]
      by_cases h2 : k2 = k
      · subst h2
        simp [mapGet, List.find?_cons, beq_iff_eq]
      · have hb : (k == k2) = false :=
          beq_eq_false_iff_ne.mpr (fun hk => h2 hk.symm)
        have hqb : (q.1 == k2) = false := by rw [hqk]; exact hb
        simp [mapGet, List.find?_cons, hb, hqb, h2]
    · rw [show mapSet (q :: qs) k v = q :: mapSet qs k v by
        simp only [mapSet]
        rw [if_neg (by simp only [beq_iff_eq]; exact hqk)]]
      by_cases h2 : k2 = q.1
      · have hqb : (q.1 == k2) = true := beq_iff_eq.mpr h2.symm
        have hkk : ¬ k2 = k := fun hk => hqk (h2 ▸ hk)
        simp [mapGet, List.find?_cons, hqb, hkk]
      · have hqb : (q.1 == k2) = false :=
          beq_eq_false_iff_ne.mpr (fun hk => h2 hk.symm)
        have hl : mapGet (q :: mapSet qs k v) k2 = mapGet (mapSet qs k v) k2 := by
          simp [mapGet, List.find?_cons, hqb]
        have hr : mapGet (q :: qs) k2 = mapGet qs k2 := by
          simp [mapGet, List.find?_cons, hqb]
        rw [hl, hr]
        exact ih

/-- After the reconciliation loop, the article stored under `k` is the
last processed batch article whose id is `k` (the first hit in the
reversed processed list); if no batch article has id `k`, the key falls
back to whatever the incoming store held. -/
theorem runBatch_mapGet :
    ∀ (l done : List Article) (store : List (Int × Article)) (curr : Int)
      (k : Int),
      mapGet (runBatch done store curr l).2.1 k =
        ((runBatch done store curr l).1.reverse.find?
          (fun a => a.id == k)).or (mapGet store k) := by
  intro l
  induction l with
  | nil => intro done store curr k; rfl
  | cons a rest ih =>
    intro done store curr k
    simp only [runBatch, List.reverse_cons, List.find?_append]
    rw [ih]
    cases hfind : ((runBatch (done ++ [syncArticle done store a])
        (mapSet store (syncArticle done store a).id (syncArticle done store a))
        (if curr ≤ (syncArticle done store a).id then (syncArticle done store a).id + 1
          else curr) rest).1).reverse.find? (fun x => x.id == k) with
    | some x => rfl
    | none =>
      simp only [Option.none_or]
      rw [mapGet_mapSet]
      cases ha : ((syncArticle done store a).id == k) with
      | true =>
        have : k = (syncArticle done store a).id := (eq_of_beq ha).symm
        simp [List.find?, ha, this]
      | false =>
        have : ¬ k = (syncArticle done store a).id :=
          fun hk => absurd (beq_iff_eq.mpr hk.symm) (by simp [ha])
        simp [List.find?, ha, this]

theorem mapRowsFrom_getD (now : Nat) :
    ∀ (l : List (List String)) (i j : Nat), j < l.length →
      (mapRowsFrom now i l).getD j defaultArticle =
        mapRow (l.getD j []) (i + j) now := by
  intro l
  induction l with
  | nil => intro i j hj; exact absurd hj (Nat.not_lt_zero j)
  | cons r rs ih =>
    intro i j hj
    cases j with
    | zero => simp [mapRowsFrom]
    | succ j =>
      simp only [mapRowsFrom, List.getD_cons_succ]
      rw [ih (i + 1) j (Nat.lt_of_succ_lt_succ hj)]
      congr 1
      omega

/-- A two-row batch whose rows both parse to id 5. -/
def c10DupRows : List (List String) :=
  [["5", "A", "Content one", "nifty"],
   ["5", "B", "Content two", "nifty"]]

/-- C10: each mapped article's id is the integer parse of the row's first
cell with fallback to position+1 on `0`/`NaN`; a sync never leaves two
stored articles sharing an id; after ingesting a non-empty batch the store
has at most as many articles as the batch had mappable rows, and the
article stored under a key is the **last** batch article with that id —
so two same-id rows leave only the later one, as the concrete two-row
batch `c10DupRows` shows (2 mapped rows, 1 stored article, title `"B"`). -/
theorem sync_store_keyed_by_id (rows : List (List String)) (st : StorState)
    (now : Nat) :
    (∀ j : Nat, j < (fetchArticles (.ok rows) now).length →
      ((fetchArticles (.ok rows) now).getD j defaultArticle).id =
        jsIdOf (((rows.filter keepRow).getD j []).getD 0 "") j) ∧
    ((st.articles.map Prod.fst).Nodup →
      ((syncFromGoogleSheets st (.ok rows) now).articles.map Prod.fst).Nodup) ∧
    (0 < (fetchArticles (.ok rows) now).length →
      (syncFromGoogleSheets st (.ok rows) now).articles.length ≤
        (fetchArticles (.ok rows) now).length) ∧
    (0 < (fetchArticles (.ok rows) now).length →
      ∀ k : Int,
        mapGet (syncFromGoogleSheets st (.ok rows) now).articles k =
          (syncProcessed (fetchArticles (.ok rows) now)).reverse.find?
            (fun a => a.id == k)) ∧
    ((fetchArticles (.ok c10DupRows) 0).length = 2 ∧
      (syncFromGoogleSheets emptyStore (.ok c10DupRows) 0).articles.length = 1 ∧
      (mapGet (syncFromGoogleSheets emptyStore (.ok c10DupRows) 0).articles 5).map
        Article.title = some "B") := by
  refine ⟨?_, ?_, ?_, ?_, rfl, rfl, rfl⟩
  · intro j hj
    have hlen : (mapRowsFrom now 0 (rows.filter keepRow)).length =
        (rows.filter keepRow).length := length_mapRowsFrom now 0 _
    have hj2 : j < (rows.filter keepRow).length := by
      rw [show (fetchArticles (.ok rows) now).length =
        (mapRowsFrom now 0 (rows.filter keepRow)).length from rfl, hlen] at hj
      exact hj
    rw [show fetchArticles (.ok rows) now =
      mapRowsFrom now 0 (rows.filter keepRow) from rfl]
    rw [mapRowsFrom_getD now _ 0 j hj2]
    simp only [Nat.zero_add]
    rfl
  · intro hnd
    simp only [syncFromGoogleSheets]
    split
    · exact runBatch_keys_nodup _ [] [] 1 (by simp)
    · exact hnd
  · intro hne
    simp only [syncFromGoogleSheets]
    rw [if_pos hne]
    have := runBatch_store_length_le (fetchArticles (.ok rows) now) [] [] 1
    simpa using this
  · intro hne k
    simp only [syncFromGoogleSheets]
    rw [if_pos hne]
    have := runBatch_mapGet (fetchArticles (.ok rows) now) [] [] 1 k
    rw [show mapGet ([] : List (Int × Article)) k = none from rfl] at this
    rw [show syncProcessed (fetchArticles (.ok rows) now) =
      (runBatch [] [] 1 (fetchArticles (.ok rows) now)).1 from rfl]
    simpa using this

/-- C10 witness: the general theorem applied to the concrete two-row
same-id batch synced into the empty store. -/
theorem sync_store_keyed_by_id_witness :
    ((syncFromGoogleSheets emptyStore (.ok c10DupRows) 0).articles.map
      Prod.fst).Nodup ∧
    (syncFromGoogleSheets emptyStore (.ok c10DupRows) 0).articles.length ≤
      (fetchArticles (.ok c10DupRows) 0).length ∧
    mapGet (syncFromGoogleSheets emptyStore (.ok c10DupRows) 0).articles 5 =
      (syncProcessed (fetchArticles (.ok c10DupRows) 0)).reverse.find?
        (fun a => a.id == 5) ∧
    ((fetchArticles (.ok c10DupRows) 0).getD 0 defaultArticle).id =
      jsIdOf "5" 0 := by
  refine ⟨?_, ?_, ?_, ?_⟩
  · exact (sync_store_keyed_by_id c10DupRows emptyStore 0).2.1 (by decide)
  · exact (sync_store_keyed_by_id c10DupRows emptyStore 0).2.2.1 (by decide)
  · exact (sync_store_keyed_by_id c10DupRows emptyStore 0).2.2.2.1 (by decide) 5
  · exact (sync_store_keyed_by_id c10DupRows emptyStore 0).1 0 (by decide)

/-! ## Claim C7 — the trending ranking -/

theorem sortedByViews_sorted (arts : List Article) :
    List.Sorted trendLe (sortedByViews arts) :=
  List.sorted_insertionSort trendLe arts

theorem length_sortedByViews (arts : List Article) :
    (sortedByViews arts).length = arts.length :=
  List.length_insertionSort trendLe arts

theorem trendTail_nil_of_short (arts : List Article)
    (h : (sortedByViews arts).length < 15) : trendTail arts = [] := by
  have hrem : trendRemaining arts = [] :=
    List.drop_eq_nil_of_le (Nat.le_of_lt h)
  simp [trendTail, hrem]

theorem trending_take_eq (arts : List Article) :
    (getTrendingArticles arts).take 15 = mostViewed arts := by
  by_cases h : 15 ≤ (sortedByViews arts).length
  · have hlen : (mostViewed arts).length = 15 := by
      simp only [mostViewed, List.length_take]
      omega
    rw [getTrendingArticles, List.take_append_eq_append_take, hlen]
    simp [mostViewed, List.take_take]
  · have htail : trendTail arts = [] :=
      trendTail_nil_of_short arts (Nat.lt_of_not_le h)
    rw [getTrendingArticles, htail, List.append_nil]
    simp only [mostViewed, List.take_take]
    rfl

theorem trending_drop_eq (arts : List Article) :
    (getTrendingArticles arts).drop 15 = trendTail arts := by
  by_cases h : 15 ≤ (sortedByViews arts).length
  · have hlen : (mostViewed arts).length = 15 := by
      simp only [mostViewed, List.length_take]
      omega
    rw [getTrendingArticles, List.drop_append_eq_append_drop, hlen]
    simp [mostViewed, List.drop_take]
  · have htail : trendTail arts = [] :=
      trendTail_nil_of_short arts (Nat.lt_of_not_le h)
    rw [getTrendingArticles, htail, List.append_nil]
    exact List.drop_eq_nil_of_le
      (le_trans (List.length_take_le 15 _) (by omega))

theorem mem_trendTail (arts : List Article) :
    ∀ b ∈ trendTail arts, b ∈ trendRemaining arts := by
  intro b hb
  simp only [trendTail, List.mem_append] at hb
  rcases hb with ((((h | h) | h) | h) | h) | h <;>
    exact List.mem_of_mem_filter (List.mem_of_mem_take h)

/-- Every element of the most-viewed head is `trendLe`-before every
element of the remainder. -/
theorem mostViewed_le_remaining (arts : List Article) :
    ∀ a ∈ mostViewed arts, ∀ b ∈ trendRemaining arts, trendLe a b := by
  have hs := sortedByViews_sorted arts
  rw [show sortedByViews arts =
    (sortedByViews arts).take 15 ++ (sortedByViews arts).drop 15 from
    (List.take_append_drop 15 _).symm] at hs
  exact (List.pairwise_append.mp hs).2.2

theorem filter_take_self (l : List Article) (n : Nat) (p : Article → Bool) :
    ((l.filter p).take n).filter p = (l.filter p).take n :=
  List.filter_eq_self.mpr
    (fun _ ha => List.of_mem_filter (List.mem_of_mem_take ha))

theorem filter_take_nil (l : List Article) (n : Nat) (p q : Article → Bool)
    (h : ∀ a : Article, q a = true → p a = false) :
    ((l.filter q).take n).filter p = [] :=
  List.filter_eq_nil_iff.mpr (fun a ha => by
    rw [h a (List.of_mem_filter (List.mem_of_mem_take ha))]
    exact Bool.false_ne_true)

theorem countP_take_le (l : List Article) (n : Nat) (p q : Article → Bool) :
    ((l.filter q).take n).countP p ≤ n :=
  le_trans (List.countP_le_length p) (List.length_take_le n _)

theorem countP_take_zero (l : List Article) (n : Nat) (p q : Article → Bool)
    (h : ∀ a : Article, q a = true → p a = false) :
    ((l.filter q).take n).countP p = 0 := by
  rw [List.countP_eq_length_filter, filter_take_nil l n p q h]
  rfl

/-- Category equality tests against two different literals exclude each
other. -/
theorem beq_cat_false (a : Article) (x y : String) (hxy : (x == y) = false)
    (h : (a.category == x) = true) : (a.category == y) = false := by
  rw [eq_of_beq h]
  exact hxy

/-- A member of a prioritised category bucket is not in the catch-all
bucket. -/
theorem cat_not_others (a : Article) (c : String)
    (hc : trendCats.contains c = true)
    (h : (a.category == c) = true) :
    (!(trendCats.contains a.category)) = false := by
  rw [eq_of_beq h, hc]
  rfl

/-- A member of the catch-all bucket is in none of the prioritised
categories. -/
theorem others_not_cat (a : Article) (c : String)
    (hc : trendCats.contains c = true)
    (h : (!(trendCats.contains a.category)) = true) :
    (a.category == c) = false := by
  cases hb : (a.category == c) with
  | false => rfl
  | true =>
    rw [eq_of_beq hb, hc] at h
    exact absurd h (by decide)

theorem trendTail_filter_nifty (arts : List Article) :
    (trendTail arts).filter (fun a => a.category == "nifty") =
      ((trendRemaining arts).filter (fun a => a.category == "nifty")).take 2 := by
  simp only [trendTail, List.filter_append]
  rw [filter_take_self,
    filter_take_nil _ 2 _ _ (fun a ha => beq_cat_false a "breakout" "nifty" (by decide) ha),
    filter_take_nil _ 2 _ _ (fun a ha => beq_cat_false a "ipo" "nifty" (by decide) ha),
    filter_take_nil _ 2 _ _ (fun a ha => beq_cat_false a "research_report" "nifty" (by decide) ha),
    filter_take_nil _ 2 _ _ (fun a ha => beq_cat_false a "movers" "nifty" (by decide) ha),
    filter_take_nil _ 5 _ _ (fun a ha => others_not_cat a "nifty" (by decide) ha)]
  simp

theorem trendTail_filter_breakout (arts : List Article) :
    (trendTail arts).filter (fun a => a.category == "breakout") =
      ((trendRemaining arts).filter (fun a => a.category == "breakout")).take 2 := by
  simp only [trendTail, List.filter_append]
  rw [filter_take_self,
    filter_take_nil _ 2 _ _ (fun a ha => beq_cat_false a "nifty" "breakout" (by decide) ha),
    filter_take_nil _ 2 _ _ (fun a ha => beq_cat_false a "ipo" "breakout" (by decide) ha),
    filter_take_nil _ 2 _ _ (fun a ha => beq_cat_false a "research_report" "breakout" (by decide) ha),
    filter_take_nil _ 2 _ _ (fun a ha => beq_cat_false a "movers" "breakout" (by decide) ha),
    filter_take_nil _ 5 _ _ (fun a ha => others_not_cat a "breakout" (by decide) ha)]
  simp

theorem trendTail_filter_ipo (arts : List Article) :
    (trendTail arts).filter (fun a => a.category == "ipo") =
      ((trendRemaining arts).filter (fun a => a.category == "ipo")).take 2 := by
  simp only [trendTail, List.filter_append]
  rw [filter_take_self,
    filter_take_nil _ 2 _ _ (fun a ha => beq_cat_false a "nifty" "ipo" (by decide) ha),
    filter_take_nil _ 2 _ _ (fun a ha => beq_cat_false a "breakout" "ipo" (by decide) ha),
    filter_take_nil _ 2 _ _ (fun a ha => beq_cat_false a "research_report" "ipo" (by decide) ha),
    filter_take_nil _ 2 _ _ (fun a ha => beq_cat_false a "movers" "ipo" (by decide) ha),
    filter_take_nil _ 5 _ _ (fun a ha => others_not_cat a "ipo" (by decide) ha)]
  simp

theorem trendTail_filter_research (arts : List Article) :
    (trendTail arts).filter (fun a => a.category == "research_report") =
      ((trendRemaining arts).filter (fun a => a.category == "research_report")).take 2 := by
  simp only [trendTail, List.filter_append]
  rw [filter_take_self,
    filter_take_nil _ 2 _ _ (fun a ha => beq_cat_false a "nifty" "research_report" (by decide) ha),
    filter_take_nil _ 2 _ _ (fun a ha => beq_cat_false a "breakout" "research_report" (by decide) ha),
    filter_take_nil _ 2 _ _ (fun a ha => beq_cat_false a "ipo" "research_report" (by decide) ha),
    filter_take_nil _ 2 _ _ (fun a ha => beq_cat_false a "movers" "research_report" (by decide) ha),
    filter_take_nil _ 5 _ _ (fun a ha => others_not_cat a "research_report" (by decide) ha)]
  simp

theorem trendTail_filter_movers (arts : List Article) :
    (trendTail arts).filter (fun a => a.category == "movers") =
      ((trendRemaining arts).filter (fun a => a.category == "movers")).take 2 := by
  simp only [trendTail, List.filter_append]
  rw [filter_take_self,
    filter_take_nil _ 2 _ _ (fun a ha => beq_cat_false a "nifty" "movers" (by decide) ha),
    filter_take_nil _ 2 _ _ (fun a ha => beq_cat_false a "breakout" "movers" (by decide) ha),
    filter_take_nil _ 2 _ _ (fun a ha => beq_cat_false a "ipo" "movers" (by decide) ha),
    filter_take_nil _ 2 _ _ (fun a ha => beq_cat_false a "research_report" "movers" (by decide) ha),
    filter_take_nil _ 5 _ _ (fun a ha => others_not_cat a "movers" (by decide) ha)]
  simp

theorem trendTail_filter_others (arts : List Article) :
    (trendTail arts).filter (fun a => !(trendCats.contains a.category)) =
      ((trendRemaining arts).filter
        (fun a => !(trendCats.contains a.category))).take 5 := by
  simp only [trendTail, List.filter_append]
  rw [filter_take_self,
    filter_take_nil _ 2 _ _ (fun a ha => cat_not_others a "nifty" (by decide) ha),
    filter_take_nil _ 2 _ _ (fun a ha => cat_not_others a "breakout" (by decide) ha),
    filter_take_nil _ 2 _ _ (fun a ha => cat_not_others a "ipo" (by decide) ha),
    filter_take_nil _ 2 _ _ (fun a ha => cat_not_others a "research_report" (by decide) ha),
    filter_take_nil _ 2 _ _ (fun a ha => cat_not_others a "movers" (by decide) ha)]
  simp

/-- C7: `getTrendingArticles` (to which `getArticles("trending")`
delegates) returns first the top 15 by the view-count/recency sort —
its head is `trendLe`-sorted and dominates everything after position 15 —
while its tail is drawn from the remainder with at most 2 articles of each
of the categories nifty, breakout, ipo, research_report and movers, at
most 5 from all other categories combined, each category bucket of the
tail being a sublist of the sorted remainder (order preserved); on 20
articles with pairwise-distinct view counts, the first 15 slots are
exactly 15 articles in strictly descending view count, all above every
tail article. -/
theorem trending_ranking (arts : List Article) :
    List.Sorted trendLe ((getTrendingArticles arts).take 15) ∧
    (∀ a ∈ (getTrendingArticles arts).take 15,
      ∀ b ∈ (getTrendingArticles arts).drop 15, trendLe a b) ∧
    (∀ b ∈ (getTrendingArticles arts).drop 15, b ∈ trendRemaining arts) ∧
    ((getTrendingArticles arts).drop 15).countP
      (fun a => a.category == "nifty") ≤ 2 ∧
    ((getTrendingArticles arts).drop 15).countP
      (fun a => a.category == "breakout") ≤ 2 ∧
    ((getTrendingArticles arts).drop 15).countP
      (fun a => a.category == "ipo") ≤ 2 ∧
    ((getTrendingArticles arts).drop 15).countP
      (fun a => a.category == "research_report") ≤ 2 ∧
    ((getTrendingArticles arts).drop 15).countP
      (fun a => a.category == "movers") ≤ 2 ∧
    ((getTrendingArticles arts).drop 15).countP
      (fun a => !(trendCats.contains a.category)) ≤ 5 ∧
    (((getTrendingArticles arts).drop 15).filter
      (fun a => a.category == "nifty")).Sublist (trendRemaining arts) ∧
    (((getTrendingArticles arts).drop 15).filter
      (fun a => a.category == "breakout")).Sublist (trendRemaining arts) ∧
    (((getTrendingArticles arts).drop 15).filter
      (fun a => a.category == "ipo")).Sublist (trendRemaining arts) ∧
    (((getTrendingArticles arts).drop 15).filter
      (fun a => a.category == "research_report")).Sublist (trendRemaining arts) ∧
    (((getTrendingArticles arts).drop 15).filter
      (fun a => a.category == "movers")).Sublist (trendRemaining arts) ∧
    (((getTrendingArticles arts).drop 15).filter
      (fun a => !(trendCats.contains a.category))).Sublist (trendRemaining arts) ∧
    (arts.length = 20 →
      List.Pairwise (fun a b : Article => a.viewCount ≠ b.viewCount) arts →
      ((getTrendingArticles arts).take 15).length = 15 ∧
      List.Pairwise (fun a b : Article => b.viewCount < a.viewCount)
        ((getTrendingArticles arts).take 15) ∧
      ∀ a ∈ (getTrendingArticles arts).take 15,
        ∀ b ∈ (getTrendingArticles arts).drop 15,
          b.viewCount < a.viewCount) := by
  refine ⟨?_, ?_, ?_, ?_, ?_, ?_, ?_, ?_, ?_, ?_, ?_, ?_, ?_, ?_, ?_, ?_⟩
  · rw [trending_take_eq]
    exact List.Pairwise.sublist (List.take_sublist 15 _) (sortedByViews_sorted arts)
  · intro a ha b hb
    rw [trending_take_eq] at ha
    rw [trending_drop_eq] at hb
    exact mostViewed_le_remaining arts a ha b (mem_trendTail arts b hb)
  · intro b hb
    rw [trending_drop_eq] at hb
    exact mem_trendTail arts b hb
  · rw [trending_drop_eq, List.countP_eq_length_filter, trendTail_filter_nifty]
    exact List.length_take_le 2 _
  · rw [trending_drop_eq, List.countP_eq_length_filter, trendTail_filter_breakout]
    exact List.length_take_le 2 _
  · rw [trending_drop_eq, List.countP_eq_length_filter, trendTail_filter_ipo]
    exact List.length_take_le 2 _
  · rw [trending_drop_eq, List.countP_eq_length_filter, trendTail_filter_research]
    exact List.length_take_le 2 _
  · rw [trending_drop_eq, List.countP_eq_length_filter, trendTail_filter_movers]
    exact List.length_take_le 2 _
  · rw [trending_drop_eq, List.countP_eq_length_filter, trendTail_filter_others]
    exact List.length_take_le 5 _
  · rw [trending_drop_eq, trendTail_filter_nifty]
    exact (List.take_sublist _ _).trans (List.filter_sublist _)
  · rw [trending_drop_eq, trendTail_filter_breakout]
    exact (List.take_sublist _ _).trans (List.filter_sublist _)
  · rw [trending_drop_eq, trendTail_filter_ipo]
    exact (List.take_sublist _ _).trans (List.filter_sublist _)
  · rw [trending_drop_eq, trendTail_filter_research]
    exact (List.take_sublist _ _).trans (List.filter_sublist _)
  · rw [trending_drop_eq, trendTail_filter_movers]
    exact (List.take_sublist _ _).trans (List.filter_sublist _)
  · rw [trending_drop_eq, trendTail_filter_others]
    exact (List.take_sublist _ _).trans (List.filter_sublist _)
  · intro h20 hdist
    have hperm : (sortedByViews arts).Perm arts :=
      List.perm_insertionSort trendLe arts
    have hdist2 : List.Pairwise
        (fun a b : Article => a.viewCount ≠ b.viewCount) (sortedByViews arts) :=
      (hperm.pairwise_iff (fun h => h.symm)).mpr hdist
    have hcomb := List.Pairwise.and (sortedByViews_sorted arts) hdist2
    have hstrict : List.Pairwise
        (fun a b : Article => b.viewCount < a.viewCount) (sortedByViews arts) :=
      hcomb.imp (fun hab => by
        obtain ⟨h1, h2⟩ := hab
        rw [trendLe_iff] at h1
        omega)
    refine ⟨?_, ?_, ?_⟩
    · rw [trending_take_eq]
      show ((sortedByViews arts).take 15).length = 15
      rw [List.length_take, length_sortedByViews, h20]
      decide
    · rw [trending_take_eq]
      show List.Pairwise _ ((sortedByViews arts).take 15)
      exact List.Pairwise.sublist (List.take_sublist 15 _) hstrict
    · intro a ha b hb
      rw [trending_take_eq] at ha
      rw [trending_drop_eq] at hb
      have hb2 : b ∈ trendRemaining arts := mem_trendTail arts b hb
      have hsplit : List.Pairwise
          (fun a b : Article => trendLe a b ∧ a.viewCount ≠ b.viewCount)
          ((sortedByViews arts).take 15 ++ (sortedByViews arts).drop 15) := by
        rw [List.take_append_drop]
        exact hcomb
      have hcross := (List.pairwise_append.mp hsplit).2.2 a ha b hb2
      obtain ⟨h1, h2⟩ := hcross
      rw [trendLe_iff] at h1
      omega

/-- One synthetic stored article for the trending scenario. -/
def c7Art (i : Nat) : Article :=
  { defaultArticle with
      id := Int.ofNat (i + 1), title := "Story", content := "Body"
      category := "others", viewCount := 100 - i, createdAt := i }

/-- Twenty stored articles with pairwise-distinct view counts. -/
def c7Arts : List Article := (List.range 20).map c7Art

/-- C7 witness: the trending scenario conclusions hold for the concrete
20-article store with distinct view counts. -/
theorem trending_ranking_witness :
    ((getTrendingArticles c7Arts).take 15).length = 15 ∧
    List.Pairwise (fun a b : Article => b.viewCount < a.viewCount)
      ((getTrendingArticles c7Arts).take 15) ∧
    (∀ a ∈ (getTrendingArticles c7Arts).take 15,
      ∀ b ∈ (getTrendingArticles c7Arts).drop 15,
        b.viewCount < a.viewCount) := by
  obtain ⟨-, -, -, -, -, -, -, -, -, -, -, -, -, -, -, hs⟩ :=
    trending_ranking c7Arts
  exact hs (by decide) (by decide)

end StocksShorts
